import Mathlib

/-!
Verification of the MCP connection engine in `aider/mcp_server.py`:
the per-connection JSON-RPC client (`McpClient`) and the multi-server
manager (`McpServerManager`).  The Python code is shallowly embedded as
pure state-passing functions: the background receive loop and the
external server are represented by outcome oracles (what reply, if any,
the server produced for a request), and writes to the child process's
stdin are recorded as events rather than performed.  The diagnostics
sink (`self.io`) only logs and is not modelled.
-/

namespace Mcp

/-- JSON values, as passed between the client and the server process.
Numbers are integers (the only numbers the engine itself produces are
request ids). -/
inductive Json where
  | null
  | bool (b : Bool)
  | num (n : Int)
  | str (s : String)
  | arr (elems : List Json)
  | obj (fields : List (String × Json))

/-- Python dict lookup (`d.get(k)` / `d[k]`) on an insertion-ordered
association list: the first entry with the key. -/
def pyGet [DecidableEq κ] : List (κ × α) → κ → Option α
  | [], _ => none
  | e :: rest, k => if e.1 = k then some e.2 else pyGet rest k

/-- Python `k in d`. -/
def pyHas [DecidableEq κ] (d : List (κ × α)) (k : κ) : Bool :=
  (pyGet d k).isSome

/-- Python dict assignment `d[k] = v`: replace in place when the key
exists (keeping its position), append otherwise. -/
def pySet [DecidableEq κ] : List (κ × α) → κ → α → List (κ × α)
  | [], k, v => [(k, v)]
  | e :: rest, k, v => if e.1 = k then (k, v) :: rest else e :: pySet rest k v

/-- Python `del d[k]` / `d.pop(k, None)`: the entries whose key is not
`k` (a well-formed dict has at most one). -/
def pyDel [DecidableEq κ] : List (κ × α) → κ → List (κ × α)
  | [], _ => []
  | e :: rest, k => if e.1 = k then pyDel rest k else e :: pyDel rest k

/-- Key lookup inside a JSON object (`message.get(k)` when the message
is a dict); `none` on a non-object. -/
def Json.getObjVal : Json → String → Option Json
  | .obj fields, k => pyGet fields k
  | _, _ => none

/-- Python `k in d` for a JSON object (capabilities are dicts in every
reply the server sends; containment in a non-dict is not modelled). -/
def Json.hasKey (j : Json) (k : String) : Bool :=
  (j.getObjVal k).isSome

/-- The pending-result slot `{"done": False, "result": None, "error": None}`
created by `_send_request` and completed by the receive loop. -/
structure Future where
  done : Bool
  result : Option Json
  error : Option Json

/-- The mutable state of one `McpClient` (`__init__`, lines 13-25).  The
process handle is held separately (see `Proc`): the manager's
`active_processes` entry and the client's `self.process` are the same
object in the source, so the embedding threads one `Proc` value through
both. -/
structure McpClient where
  request_id : Nat
  pending_requests : List (Nat × Future)
  capabilities : Json
  server_info : Json
  tools : List Json
  initialized : Bool

/-- A freshly constructed client: `McpClient.__init__` sets the counter
to 0, empties the tables and leaves `initialized` false. -/
def newMcpClient : McpClient :=
  { request_id := 0
    pending_requests := []
    capabilities := .obj []
    server_info := .obj []
    tools := []
    initialized := false }

/-- What the server did about one outstanding request: never answered
(the caller's wait times out), answered with a result, or answered with
an error object. -/
inductive Outcome where
  | timeout
  | ok (result : Json)
  | err (e : Json)

/-- The failures `_send_request` / `call_tool` raise to their caller. -/
inductive RpcErr where
  | timeout
  | mcpError (e : Json)
  | notInitialized

/-- Observable actions of a client on its shared state and on the child
process's stdin.  `writeLine msg` stands for writing the serialization
of `msg` plus a newline. -/
inductive Event where
  | insertPending (rid : Nat)
  | writeLine (msg : Json)
  | popPending (rid : Nat)

/-- The JSON-RPC request object built by `_send_request` (lines 81-83).
`request["params"] = params` runs only when params is truthy; callers
pass either no params or a non-empty dict, modelled by the `Option`. -/
def encodeRequest (rid : Nat) (method : String) (params : Option Json) : Json :=
  match params with
  | some p => .obj [("jsonrpc", .str "2.0"), ("id", .num rid),
                    ("method", .str method), ("params", p)]
  | none => .obj [("jsonrpc", .str "2.0"), ("id", .num rid),
                  ("method", .str method)]

/-- The JSON-RPC notification object built by `_send_notification`
(lines 118-120). -/
def encodeNotif (method : String) (params : Option Json) : Json :=
  match params with
  | some p => .obj [("jsonrpc", .str "2.0"), ("method", .str method), ("params", p)]
  | none => .obj [("jsonrpc", .str "2.0"), ("method", .str method)]

/-- The response half of `_handle_message` (lines 55-65): if the id has a
pending slot, pop it and complete its future (the waiter holds the
popped object); an unknown id is ignored. -/
def handleResponse (c : McpClient) (rid : Nat) : McpClient :=
  if pyHas c.pending_requests rid then
    { c with pending_requests := pyDel c.pending_requests rid }
  else c

/-- Embedding of `McpClient._send_request` (lines 73-114).  The id is
allocated from the monotonic counter, the pending slot is inserted, the
request line is written, and then the caller polls the future until it
is done or `timeout` seconds pass.  `outcome` is the oracle for what the
receive loop delivered during that wait:
* `.timeout`  — no matching response; the slot is popped and a
  `TimeoutError` raised (lines 101-104);
* `.ok r`     — the loop ran `_handle_message` on a result response
  (popping the slot) and the method returns `r` (line 109);
* `.err e`    — the loop popped the slot and filled `error`; the raise
  at line 107 sends control through the `except` at lines 111-114,
  which pops the (already absent) id again.
The returned events record, in program order, the insert, the stdin
write and the pop — the insert strictly precedes the write. -/
def sendRequest (c : McpClient) (method : String) (params : Option Json)
    (outcome : Outcome) : McpClient × Except RpcErr Json × List Event :=
  let rid := c.request_id + 1
  let c1 : McpClient := { c with request_id := rid }
  let request := encodeRequest rid method params
  let c2 : McpClient :=
    { c1 with pending_requests := pySet c1.pending_requests rid ⟨false, none, none⟩ }
  let trace := [Event.insertPending rid, Event.writeLine request, Event.popPending rid]
  match outcome with
  | .timeout =>
      ({ c2 with pending_requests := pyDel c2.pending_requests rid },
       .error .timeout, trace)
  | .ok res =>
      (handleResponse c2 rid, .ok res, trace)
  | .err e =>
      let c3 := handleResponse c2 rid
      ({ c3 with pending_requests := pyDel c3.pending_requests rid },
       .error (.mcpError e), trace)

/-- `result.get("tools", [])` as stored into `self.tools`: the replies
the engine consumes carry an array there (a non-array reply is modelled
as the default). -/
def getToolsList (result : Json) : List Json :=
  match result.getObjVal "tools" with
  | some (.arr ts) => ts
  | _ => []

/-- Embedding of `McpClient._refresh_tools` (lines 161-175): return at
once when not initialized; otherwise, when the negotiated capabilities
hold a "tools" key, issue a `tools/list` request and replace the cache
wholesale with the reply — any exception is caught, leaving the cache
as it was. -/
def refreshTools (c : McpClient) (outcome : Outcome) : McpClient × List Event :=
  if !c.initialized then (c, [])
  else if c.capabilities.hasKey "tools" then
    let r := sendRequest c "tools/list" none outcome
    match r.2.1 with
    | .ok result => ({ r.1 with tools := getToolsList result }, r.2.2)
    | .error _ => (r.1, r.2.2)
  else (c, [])

/-- Embedding of `McpClient._handle_message` (lines 53-71).  A message
with an "id" key is a response: its pending slot, if any, is popped
(ids are non-negative integers; any other id value matches no slot).
A message without one is a notification: only
`notifications/tools/list_changed` is acted on, by `_refresh_tools`,
whose nested `tools/list` request is resolved by `refreshOutcome`. -/
def handleMessage (c : McpClient) (message : Json) (refreshOutcome : Outcome) :
    McpClient × List Event :=
  match message.getObjVal "id" with
  | some (.num i) =>
      if 0 ≤ i then (handleResponse c i.toNat, []) else (c, [])
  | some _ => (c, [])
  | none =>
      match message.getObjVal "method" with
      | some (.str m) =>
          if m = "notifications/tools/list_changed" then refreshTools c refreshOutcome
          else (c, [])
      | _ => (c, [])

/-- The `initialize` request's params (lines 130-134). -/
def initParams : Json :=
  .obj [("protocolVersion", .str "2025-03-26"),
        ("capabilities", .obj [("roots", .obj [("listChanged", .bool true)]),
                               ("sampling", .obj [])]),
        ("clientInfo", .obj [("name", .str "aider"), ("version", .str "0.1.0")])]

/-- Embedding of `McpClient.initialize` (lines 126-159): send the
`initialize` request; on a reply, store the server's capabilities and
serverInfo, send the `initialized` notification (`notifyOk` is whether
that stdin write succeeded), call `_refresh_tools` (note that
`self.initialized` is still false at that point), then set
`initialized = True` and return success.  Any exception lands in the
`except` that returns False, leaving `initialized` as it was. -/
def initConnection (c : McpClient) (initOutcome : Outcome) (notifyOk : Bool)
    (toolsOutcome : Outcome) : McpClient × Bool × List Event :=
  let r := sendRequest c "initialize" (some initParams) initOutcome
  match r.2.1 with
  | .error _ => (r.1, false, r.2.2)
  | .ok result =>
      let c2 : McpClient :=
        { r.1 with capabilities := (result.getObjVal "capabilities").getD (.obj [])
                   server_info := (result.getObjVal "serverInfo").getD (.obj []) }
      if notifyOk then
        let ev := Event.writeLine (encodeNotif "notifications/initialized" none)
        let rt := refreshTools c2 toolsOutcome
        ({ rt.1 with initialized := true }, true, r.2.2 ++ [ev] ++ rt.2)
      else
        (c2, false, r.2.2)

/-- Embedding of `McpClient.get_tools` (lines 177-179): `self.tools.copy()`
is a shallow copy — a fresh list holding the same descriptor dicts. -/
def getTools (c : McpClient) : List Json :=
  c.tools

/-- Embedding of `McpClient.call_tool` (lines 181-189): raise at once
when not initialized (before any id allocation, slot insertion or stdin
write), else send a `tools/call` request. -/
def callToolClient (c : McpClient) (name : String) (arguments : Json)
    (outcome : Outcome) : McpClient × Except RpcErr Json × List Event :=
  if !c.initialized then (c, .error .notInitialized, [])
  else sendRequest c "tools/call"
    (some (.obj [("name", .str name), ("arguments", arguments)])) outcome

/-- A child process as the engine observes it.  `exited` is what
`poll()` / `wait(timeout)` see; the two behaviour flags say whether the
process exits when its stdin is closed and whether it honours SIGTERM
(a hanging server ignores both).  SIGKILL always works. -/
structure Proc where
  exited : Bool
  exitsOnStdinClose : Bool
  exitsOnTerm : Bool
deriving DecidableEq

/-- `process.stdin.close()`: a cooperative server exits when its input
ends. -/
def Proc.stdinClose (p : Proc) : Proc :=
  if p.exitsOnStdinClose then { p with exited := true } else p

/-- `process.terminate()` (SIGTERM): honoured or ignored per the flag;
a no-op on an exited process. -/
def Proc.terminate (p : Proc) : Proc :=
  if p.exitsOnTerm then { p with exited := true } else p

/-- `process.kill()` (SIGKILL): always fatal. -/
def Proc.kill (p : Proc) : Proc :=
  { p with exited := true }

/-- Embedding of `McpClient.close` (lines 191-202): when the process is
still running, close its stdin and wait up to the grace period; if the
wait times out (`TimeoutExpired`), escalate to SIGTERM and wait again;
if that also times out, SIGKILL.  `wait(timeout=5)` succeeds exactly
when the process has exited. -/
def closeConn (p : Proc) : Proc :=
  if p.exited then p
  else
    let p1 := p.stdinClose
    if p1.exited then p1
    else
      let p2 := p1.terminate
      if p2.exited then p2
      else p2.kill

/-- The manager's two registrations (`__init__`, lines 208-212; the
`servers` dict is never used by the operations under scrutiny). -/
structure McpServerManager where
  active_processes : List (String × Proc)
  mcp_clients : List (String × McpClient)

/-- A server launch spec as `start_server` reads it: `config.get("command")`
(absent or null gives `none`), `config.get("args", [])`,
`config.get("env", {})`. -/
structure LaunchSpec where
  command : Option String
  args : List String
  env : List (String × String)

/-- Observable process-lifecycle actions of the manager. -/
inductive MgrEvent where
  | spawned (name : String)
  | sentTerminate (name : String)
deriving DecidableEq

/-- Embedding of `McpServerManager.start_server` (lines 214-271):
return True at once when the name is already in `active_processes`
(liveness is not checked); fail without spawning when the spec has no
command; otherwise spawn (`spawnResult` is the `subprocess.Popen`
oracle — `none` models the constructor raising), register the process,
build a fresh client and run its handshake (`initOutcome`, `notifyOk`,
`toolsOutcome` resolve the handshake's requests as in `initConnection`).
On handshake success the client is registered; on failure the process
is sent SIGTERM and the `active_processes` entry deleted. -/
def startServer (m : McpServerManager) (server_name : String) (config : LaunchSpec)
    (spawnResult : Option Proc) (initOutcome : Outcome) (notifyOk : Bool)
    (toolsOutcome : Outcome) : McpServerManager × Bool × List MgrEvent :=
  if pyHas m.active_processes server_name then (m, true, [])
  else
    match config.command with
    | none => (m, false, [])
    | some _ =>
      match spawnResult with
      | none => (m, false, [])
      | some p =>
        let m1 : McpServerManager :=
          ⟨pySet m.active_processes server_name p, m.mcp_clients⟩
        let r := initConnection newMcpClient initOutcome notifyOk toolsOutcome
        if r.2.1 then
          (⟨m1.active_processes, pySet m1.mcp_clients server_name r.1⟩, true,
           [MgrEvent.spawned server_name])
        else
          (⟨pyDel m1.active_processes server_name, m1.mcp_clients⟩, false,
           [MgrEvent.spawned server_name, MgrEvent.sentTerminate server_name])

/-- Embedding of `McpServerManager.stop_server` (lines 273-300): False
when the name is not registered; otherwise close the client (removing
its `mcp_clients` entry — `close` raises nothing in this process model,
so the `del` always runs), then SIGTERM the process and wait; a timed
out wait is escalated to SIGKILL.  Both escalation branches delete the
`active_processes` entry; only the graceful one returns True. -/
def stopServer (m : McpServerManager) (server_name : String) :
    McpServerManager × Bool :=
  match pyGet m.active_processes server_name with
  | none => (m, false)
  | some p =>
    let step1 : List (String × McpClient) × Proc :=
      if pyHas m.mcp_clients server_name then (pyDel m.mcp_clients server_name, closeConn p)
      else (m.mcp_clients, p)
    let p2 := step1.2.terminate
    if p2.exited then
      (⟨pyDel m.active_processes server_name, step1.1⟩, true)
    else
      (⟨pyDel m.active_processes server_name, step1.1⟩, false)

/-- Embedding of `McpServerManager.stop_all_servers` (lines 302-306):
`stop_server` on every name in a snapshot of `active_processes`'s keys. -/
def stopAllServers (m : McpServerManager) : McpServerManager :=
  (m.active_processes.map Prod.fst).foldl (fun acc name => (stopServer acc name).1) m

/-- The per-descriptor tagging `tool["_mcp_server"] = server_name` in
`get_all_tools` (line 316); descriptors are JSON objects. -/
def tagTool (server_name : String) (t : Json) : Json :=
  match t with
  | .obj fields => .obj (pySet fields "_mcp_server" (.str server_name))
  | other => other

/-- Embedding of `McpServerManager.get_all_tools` (lines 308-320).
`client.get_tools()` returns a shallow copy: a fresh list whose
elements are the descriptor dicts cached in the client, so the tagging
assignment mutates the cached descriptors in place.  The embedding
returns both the aggregated list and the manager as it stands
afterwards, with every client's cache tagged. -/
def getAllTools (m : McpServerManager) : List Json × McpServerManager :=
  ((m.mcp_clients.map fun e => (getTools e.2).map (tagTool e.1)).flatten,
   ⟨m.active_processes,
    m.mcp_clients.map fun e => (e.1, { e.2 with tools := e.2.tools.map (tagTool e.1) })⟩)

/-- Does the cached list hold a descriptor whose "name" is `tool_name`
(`any(tool["name"] == tool_name for tool in tools)`, line 335)?
Descriptors carry a string "name". -/
def toolsHaveName (tools : List Json) (tool_name : String) : Bool :=
  tools.any fun t =>
    match t.getObjVal "name" with
    | some (.str s) => s = tool_name
    | _ => false

/-- The `for name, client in self.mcp_clients.items()` search of
`call_tool` (lines 333-336): the first registered client whose cached
tool list holds the name. -/
def findToolServer (clients : List (String × McpClient)) (tool_name : String) :
    Option (String × McpClient) :=
  match clients with
  | [] => none
  | e :: rest =>
      if toolsHaveName (getTools e.2) tool_name then some e
      else findToolServer rest tool_name

/-- Routing failures `call_tool` raises before touching any client. -/
inductive MgrErr where
  | serverNotFound (name : String)
  | toolNotFound (name : String)
  | rpc (e : RpcErr)

/-- A client-level failure propagating through the manager. -/
def mapRpc : Except RpcErr Json → Except MgrErr Json
  | .ok r => .ok r
  | .error e => .error (.rpc e)

/-- Embedding of `McpServerManager.call_tool` (lines 322-337): with an
explicit server name, route to that client (raising when it is not
registered); without one, route to the first registered client whose
cached list holds the tool name (raising when none does).  The middle
component reports which server the call was routed to. -/
def mgrCallTool (m : McpServerManager) (tool_name : String) (arguments : Json)
    (server_name : Option String) (outcome : Outcome) :
    McpServerManager × Option String × Except MgrErr Json :=
  match server_name with
  | some sn =>
    match pyGet m.mcp_clients sn with
    | none => (m, none, .error (.serverNotFound sn))
    | some c =>
      let r := callToolClient c tool_name arguments outcome
      (⟨m.active_processes, pySet m.mcp_clients sn r.1⟩, some sn, mapRpc r.2.1)
  | none =>
    match findToolServer m.mcp_clients tool_name with
    | none => (m, none, .error (.toolNotFound tool_name))
    | some sc =>
      let r := callToolClient sc.2 tool_name arguments outcome
      (⟨m.active_processes, pySet m.mcp_clients sc.1 r.1⟩, some sc.1, mapRpc r.2.1)

/-- The request ids a sequence of `_send_request` calls allocates, one
call per (method, params, outcome) triple, threading the client state. -/
def sendIds : McpClient → List (String × Option Json × Outcome) → List Nat
  | _, [] => []
  | c, s :: rest => (c.request_id + 1) :: sendIds (sendRequest c s.1 s.2.1 s.2.2).1 rest

/-- Every in-flight request id was allocated from the counter: no
pending key exceeds `request_id`.  Holds of a fresh client and is kept
by every operation; under it, a newly allocated id can never collide
with a pending one. -/
def pendingBounded (c : McpClient) : Prop :=
  ∀ e ∈ c.pending_requests, e.1 ≤ c.request_id

/-! ### Dictionary lemmas -/

theorem pyGet_pySet_self [DecidableEq κ] (d : List (κ × α)) (k : κ) (v : α) :
    pyGet (pySet d k v) k = some v := by
  induction d with
  | nil => simp [pySet, pyGet]
  | cons e rest ih =>
      by_cases h : e.1 = k
      · simp [pySet, h, pyGet]
      · simp [pySet, h, pyGet, ih]

theorem pyGet_pyDel_self [DecidableEq κ] (d : List (κ × α)) (k : κ) :
    pyGet (pyDel d k) k = none := by
  induction d with
  | nil => simp [pyDel, pyGet]
  | cons e rest ih =>
      by_cases h : e.1 = k
      · simp [pyDel, h, ih]
      · simp [pyDel, h, pyGet, ih]

theorem pyHas_pyDel_self [DecidableEq κ] (d : List (κ × α)) (k : κ) :
    pyHas (pyDel d k) k = false := by
  simp [pyHas, pyGet_pyDel_self]

theorem pyGet_pyDel_ne [DecidableEq κ] (d : List (κ × α)) {k k' : κ} (h : k' ≠ k) :
    pyGet (pyDel d k) k' = pyGet d k' := by
  have hk : k ≠ k' := fun he => h he.symm
  induction d with
  | nil => simp [pyDel]
  | cons e rest ih =>
      by_cases he : e.1 = k
      · simp [pyDel, he, pyGet, hk, ih]
      · simp [pyDel, he, pyGet, ih]

theorem pyHas_pyDel_ne [DecidableEq κ] (d : List (κ × α)) {k k' : κ} (h : k' ≠ k) :
    pyHas (pyDel d k) k' = pyHas d k' := by
  simp [pyHas, pyGet_pyDel_ne d h]

theorem pyDel_of_not_has [DecidableEq κ] {d : List (κ × α)} {k : κ}
    (h : pyHas d k = false) : pyDel d k = d := by
  induction d with
  | nil => simp [pyDel]
  | cons e rest ih =>
      by_cases he : e.1 = k
      · simp [pyHas, pyGet, he] at h
      · simp [pyHas, pyGet, he] at h
        simp [pyDel, he, ih (by simpa [pyHas] using h)]

theorem pyDel_pySet_self [DecidableEq κ] (d : List (κ × α)) (k : κ) (v : α) :
    pyDel (pySet d k v) k = pyDel d k := by
  induction d with
  | nil => simp [pySet, pyDel]
  | cons e rest ih =>
      by_cases h : e.1 = k
      · simp [pySet, h, pyDel]
      · simp [pySet, h, pyDel, ih]

theorem mem_pyHas [DecidableEq κ] {d : List (κ × α)} {e : κ × α} (h : e ∈ d) :
    pyHas d e.1 = true := by
  induction d with
  | nil => cases h
  | cons f rest ih =>
      rcases List.mem_cons.mp h with rfl | hmem
      · simp [pyHas, pyGet]
      · by_cases hf : f.1 = e.1
        · simp [pyHas, pyGet, hf]
        · simpa [pyHas, pyGet, hf] using ih hmem

theorem pyGet_mem [DecidableEq κ] {d : List (κ × α)} {k : κ} {v : α}
    (h : pyGet d k = some v) : (k, v) ∈ d := by
  induction d with
  | nil => simp [pyGet] at h
  | cons e rest ih =>
      by_cases he : e.1 = k
      · simp [pyGet, he] at h
        subst h
        exact he ▸ List.mem_cons_self _ _
      · simp [pyGet, he] at h
        exact List.mem_cons_of_mem _ (ih h)

theorem mem_pySet [DecidableEq κ] {d : List (κ × α)} {k : κ} {v : α} {e : κ × α}
    (h : e ∈ pySet d k v) : e = (k, v) ∨ e ∈ d := by
  induction d with
  | nil => simpa [pySet] using h
  | cons f rest ih =>
      by_cases hf : f.1 = k
      · simp [pySet, hf] at h
        rcases h with rfl | hmem
        · exact .inl rfl
        · exact .inr (List.mem_cons_of_mem _ hmem)
      · simp [pySet, hf] at h
        rcases h with rfl | hmem
        · exact .inr (List.mem_cons_self _ _)
        · rcases ih hmem with h1 | h2
          · exact .inl h1
          · exact .inr (List.mem_cons_of_mem _ h2)

theorem mem_pyDel [DecidableEq κ] {d : List (κ × α)} {k : κ} {e : κ × α}
    (h : e ∈ pyDel d k) : e ∈ d ∧ e.1 ≠ k := by
  induction d with
  | nil => simp [pyDel] at h
  | cons f rest ih =>
      by_cases hf : f.1 = k
      · simp [pyDel, hf] at h
        exact ⟨List.mem_cons_of_mem _ (ih h).1, (ih h).2⟩
      · simp [pyDel, hf] at h
        rcases h with rfl | hmem
        · exact ⟨List.mem_cons_self _ _, hf⟩
        · exact ⟨List.mem_cons_of_mem _ (ih hmem).1, (ih hmem).2⟩

/-! ### Component lemmas about the client operations -/

theorem handleResponse_request_id (c : McpClient) (rid : Nat) :
    (handleResponse c rid).request_id = c.request_id := by
  unfold handleResponse; split <;> rfl

theorem handleResponse_tools (c : McpClient) (rid : Nat) :
    (handleResponse c rid).tools = c.tools := by
  unfold handleResponse; split <;> rfl

theorem handleResponse_not_pending (c : McpClient) (rid : Nat) :
    pyHas (handleResponse c rid).pending_requests rid = false := by
  unfold handleResponse
  split
  · exact pyHas_pyDel_self _ _
  · rename_i h; simpa using h

theorem mem_handleResponse {c : McpClient} {rid : Nat} {e : Nat × Future}
    (h : e ∈ (handleResponse c rid).pending_requests) : e ∈ c.pending_requests := by
  unfold handleResponse at h
  split at h
  · exact (mem_pyDel h).1
  · exact h

theorem sendRequest_request_id (c : McpClient) (method : String) (params : Option Json)
    (o : Outcome) : (sendRequest c method params o).1.request_id = c.request_id + 1 := by
  cases o <;> simp [sendRequest, handleResponse_request_id]

theorem sendRequest_tools (c : McpClient) (method : String) (params : Option Json)
    (o : Outcome) : (sendRequest c method params o).1.tools = c.tools := by
  cases o <;> simp [sendRequest, handleResponse_tools]

theorem mem_sendRequest_pending {c : McpClient} {method : String} {params : Option Json}
    {o : Outcome} {e : Nat × Future}
    (h : e ∈ (sendRequest c method params o).1.pending_requests) :
    e = (c.request_id + 1, ⟨false, none, none⟩) ∨ e ∈ c.pending_requests := by
  cases o with
  | timeout =>
      simp only [sendRequest] at h
      exact mem_pySet (mem_pyDel h).1
  | ok res =>
      simp only [sendRequest] at h
      exact mem_pySet (mem_handleResponse h)
  | err e' =>
      simp only [sendRequest] at h
      exact mem_pySet (mem_handleResponse (mem_pyDel h).1)

theorem sendIds_eq_range (specs : List (String × Option Json × Outcome)) :
    ∀ c : McpClient, sendIds c specs = List.range' (c.request_id + 1) specs.length := by
  induction specs with
  | nil => intro c; rfl
  | cons s rest ih =>
      intro c
      simp [sendIds, ih, sendRequest_request_id, List.range'_succ]

/-! ### Claim theorems -/

/-- C3: when a request's wait times out, the pending slot is removed and
a timeout failure is reported to that caller; a response carrying an id
with no pending slot leaves the state unchanged (and the loop does not
fail — `handleMessage` is total); and once a response has been
delivered for an id, the pending table no longer has an entry for it. -/
theorem pending_slot_lifecycle :
    (∀ (c : McpClient) (method : String) (params : Option Json),
        (sendRequest c method params .timeout).2.1 = .error .timeout
      ∧ pyHas (sendRequest c method params .timeout).1.pending_requests
          (c.request_id + 1) = false)
  ∧ (∀ (c : McpClient) (message : Json) (o : Outcome) (i : Int),
        message.getObjVal "id" = some (.num i) →
        pyHas c.pending_requests i.toNat = false →
        handleMessage c message o = (c, []))
  ∧ (∀ (c : McpClient) (message : Json) (o : Outcome) (i : Int),
        message.getObjVal "id" = some (.num i) → 0 ≤ i →
        pyHas (handleMessage c message o).1.pending_requests i.toNat = false) := by
  refine ⟨fun c method params => ⟨rfl, ?_⟩,
          fun c msg o i hid hnp => ?_,
          fun c msg o i hid hpos => ?_⟩
  · exact pyHas_pyDel_self _ _
  · by_cases hi : 0 ≤ i
    · simp [handleMessage, hid, hi, handleResponse, hnp]
    · simp [handleMessage, hid, hi]
  · simp [handleMessage, hid, hpos, handleResponse_not_pending]

/-- Closed instance of the pending-slot properties: a timed-out request
on a fresh client reports a timeout with no slot left behind; a
response with the unknown id 7 changes nothing; and after a delivered
response for id 1 the slot for 1 is gone. -/
theorem pending_slot_lifecycle_witness :
    ((sendRequest newMcpClient "ping" none .timeout).2.1 = .error .timeout
      ∧ pyHas (sendRequest newMcpClient "ping" none .timeout).1.pending_requests 1 = false)
  ∧ handleMessage newMcpClient (.obj [("id", .num 7)]) .timeout = (newMcpClient, [])
  ∧ pyHas (handleMessage
        ⟨1, [(1, ⟨false, none, none⟩)], .obj [], .obj [], [], true⟩
        (.obj [("id", .num 1)]) .timeout).1.pending_requests 1 = false :=
  ⟨pending_slot_lifecycle.1 newMcpClient "ping" none,
   pending_slot_lifecycle.2.1 newMcpClient _ .timeout 7 rfl rfl,
   pending_slot_lifecycle.2.2 _ _ .timeout 1 rfl (by decide)⟩

/-- C4: each send allocates `request_id + 1` and its event trace is
exactly insert-slot, write-line, pop-slot — the insert strictly
precedes the stdin write; a sequence of sends from a fresh client
allocates the strictly increasing ids 1, 2, …; and under the invariant
that pending ids never exceed the counter (kept by every send), a fresh
id is never one that is still pending. -/
theorem request_id_discipline :
    (∀ (c : McpClient) (method : String) (params : Option Json) (o : Outcome),
        (sendRequest c method params o).2.2 =
          [Event.insertPending (c.request_id + 1),
           Event.writeLine (encodeRequest (c.request_id + 1) method params),
           Event.popPending (c.request_id + 1)])
  ∧ (∀ specs, sendIds newMcpClient specs = List.range' 1 specs.length)
  ∧ (∀ (c : McpClient) (method : String) (params : Option Json) (o : Outcome),
        pendingBounded c →
          pyHas c.pending_requests (c.request_id + 1) = false
        ∧ pendingBounded (sendRequest c method params o).1) := by
  refine ⟨fun c method params o => by cases o <;> rfl,
          fun specs => by simpa using sendIds_eq_range specs newMcpClient,
          fun c method params o hb => ⟨?_, ?_⟩⟩
  · cases hh : pyHas c.pending_requests (c.request_id + 1) with
    | false => rfl
    | true =>
        exfalso
        rcases Option.isSome_iff_exists.mp (by simpa [pyHas] using hh) with ⟨v, hv⟩
        have := hb _ (pyGet_mem hv)
        omega
  · intro e he
    rw [sendRequest_request_id]
    rcases mem_sendRequest_pending he with rfl | hmem
    · simp
    · have := hb e hmem
      omega

/-- Closed instance of the id discipline: two sends from a fresh client
allocate ids 1 then 2, and on a client with id 1 pending the freshly
allocated id 2 is not pending. -/
theorem request_id_discipline_witness :
    sendIds newMcpClient [("a", none, .timeout), ("b", none, .ok (.obj []))] = [1, 2]
  ∧ pyHas (⟨1, [(1, ⟨false, none, none⟩)], .obj [], .obj [], [], true⟩ :
        McpClient).pending_requests 2 = false :=
  ⟨request_id_discipline.2.1 _,
   (request_id_discipline.2.2 ⟨1, [(1, ⟨false, none, none⟩)], .obj [], .obj [], [], true⟩
      "m" none .timeout
      (by intro e he; rcases List.mem_singleton.mp he with rfl; decide)).1⟩

/-- C7: `call_tool` on a client that is not initialized fails at once:
the state is unchanged (no id allocated, no slot inserted) and no event
is emitted (no bytes written). -/
theorem call_tool_requires_init :
    ∀ (c : McpClient) (name : String) (args : Json) (o : Outcome),
      c.initialized = false →
      callToolClient c name args o = (c, .error .notInitialized, []) := by
  intro c n a o h
  simp [callToolClient, h]

/-- Closed instance: a fresh (uninitialized) client rejects a tool call
without any state change or write. -/
theorem call_tool_requires_init_witness :
    callToolClient newMcpClient "x" (.obj []) .timeout =
      (newMcpClient, .error .notInitialized, []) :=
  call_tool_requires_init newMcpClient "x" (.obj []) .timeout rfl

/-- C8: `_refresh_tools` leaves the cache untouched when the client is
not initialized or the negotiated capabilities carry no "tools" key;
a failed `tools/list` request (timeout or error reply) also leaves the
previous cache intact; only a successful reply replaces it, wholesale. -/
theorem refresh_tools_cache_frame :
    (∀ (c : McpClient) (o : Outcome), c.initialized = false →
        refreshTools c o = (c, []))
  ∧ (∀ (c : McpClient) (o : Outcome), c.capabilities.hasKey "tools" = false →
        refreshTools c o = (c, []))
  ∧ (∀ (c : McpClient) (e : Json),
        (refreshTools c .timeout).1.tools = c.tools
      ∧ (refreshTools c (.err e)).1.tools = c.tools)
  ∧ (∀ (c : McpClient) (result : Json),
        c.initialized = true → c.capabilities.hasKey "tools" = true →
        (refreshTools c (.ok result)).1.tools = getToolsList result) := by
  refine ⟨fun c o h => by simp [refreshTools, h],
          fun c o h => ?_,
          fun c e => ⟨?_, ?_⟩,
          fun c result hi hk => by simp [refreshTools, hi, hk, sendRequest]⟩
  · cases hi : c.initialized
    · simp [refreshTools, hi]
    · simp [refreshTools, hi, h]
  · cases hi : c.initialized
    · simp [refreshTools, hi]
    · cases hk : c.capabilities.hasKey "tools"
      · simp [refreshTools, hi, hk]
      · simp [refreshTools, hi, hk, sendRequest]
  · cases hi : c.initialized
    · simp [refreshTools, hi]
    · cases hk : c.capabilities.hasKey "tools"
      · simp [refreshTools, hi, hk]
      · simp [refreshTools, hi, hk, sendRequest, handleResponse_tools]

/-- Closed instance: a refresh is a no-op on a client without the tools
capability; on one with it, a timed-out refresh keeps the stale cache
and a successful one replaces it. -/
theorem refresh_tools_cache_frame_witness :
    refreshTools ⟨0, [], .obj [], .obj [], [.str "old"], true⟩ .timeout
      = (⟨0, [], .obj [], .obj [], [.str "old"], true⟩, [])
  ∧ (refreshTools ⟨0, [], .obj [("tools", .obj [])], .obj [], [.str "old"], true⟩
        .timeout).1.tools = [.str "old"]
  ∧ (refreshTools ⟨0, [], .obj [("tools", .obj [])], .obj [], [.str "old"], true⟩
        (.ok (.obj [("tools", .arr [.str "new"])]))).1.tools = [.str "new"] :=
  ⟨refresh_tools_cache_frame.2.1 _ .timeout rfl,
   (refresh_tools_cache_frame.2.2.1 ⟨0, [], .obj [("tools", .obj [])], .obj [],
      [.str "old"], true⟩ (.obj [])).1,
   refresh_tools_cache_frame.2.2.2 _ _ rfl rfl⟩

/-- C1: the initial tool-list fetch of `initialize` never happens.  On a
fresh client whose server replies to the handshake advertising the
"tools" capability, with the `initialized` notification write
succeeding and a `tools/list` reply listing one tool standing ready, a
successful `initialize` still ends with an empty tool cache, and its
event trace holds exactly one request write (the handshake) and one
notification write — no `tools/list` line: `_refresh_tools` returns at
once because `self.initialized` is still false when `initialize` calls
it (it is set to true only afterwards, line 148), although the comment
at line 145 says the call loads the available tools. -/
theorem init_skips_initial_tool_fetch :
    initConnection newMcpClient
        (.ok (.obj [("capabilities", .obj [("tools", .obj [])]),
                    ("serverInfo", .obj [("name", .str "demo")])]))
        true
        (.ok (.obj [("tools", .arr [.obj [("name", .str "echo")]])]))
      = (⟨1, [], .obj [("tools", .obj [])], .obj [("name", .str "demo")], [], true⟩,
         true,
         [.insertPending 1,
          .writeLine (encodeRequest 1 "initialize" (some initParams)),
          .popPending 1,
          .writeLine (encodeNotif "notifications/initialized" none)]) := by
  rfl

/-- C9: `get_all_tools` tags each aggregated descriptor with its origin
server, but — because `get_tools` copies only the list, not the
descriptor dicts — the tagging mutates the descriptors cached inside
the connection: after one aggregation the client's cache itself carries
the `_mcp_server` key, so the cached descriptors are not immutable. -/
theorem get_all_tools_mutates_cache :
    getAllTools ⟨[], [("A", ⟨0, [], .obj [], .obj [],
        [.obj [("name", .str "x")]], true⟩)]⟩
      = ([.obj [("name", .str "x"), ("_mcp_server", .str "A")]],
         ⟨[], [("A", ⟨0, [], .obj [], .obj [],
             [.obj [("name", .str "x"), ("_mcp_server", .str "A")]], true⟩)]⟩) := by
  rfl

/-- C2: a failed `start_server` leaves both registrations exactly as
they were, and any process it spawned was sent SIGTERM; a spec with no
command fails (when the name is not already registered) without any
spawn at all. -/
theorem start_server_failure_unwinds :
    (∀ (m : McpServerManager) (name : String) (cfg : LaunchSpec) (sp : Option Proc)
        (o1 : Outcome) (nk : Bool) (tO : Outcome),
        (startServer m name cfg sp o1 nk tO).2.1 = false →
          (startServer m name cfg sp o1 nk tO).1.active_processes = m.active_processes
        ∧ (startServer m name cfg sp o1 nk tO).1.mcp_clients = m.mcp_clients
        ∧ (MgrEvent.spawned name ∈ (startServer m name cfg sp o1 nk tO).2.2 →
             MgrEvent.sentTerminate name ∈ (startServer m name cfg sp o1 nk tO).2.2))
  ∧ (∀ (m : McpServerManager) (name : String) (cfg : LaunchSpec) (sp : Option Proc)
        (o1 : Outcome) (nk : Bool) (tO : Outcome),
        cfg.command = none → pyHas m.active_processes name = false →
          (startServer m name cfg sp o1 nk tO).2.1 = false
        ∧ (startServer m name cfg sp o1 nk tO).2.2 = []) := by
  constructor
  · intro m name cfg sp o1 nk tO hfail
    by_cases h : pyHas m.active_processes name = true
    · simp [startServer, h] at hfail
    · have h' : pyHas m.active_processes name = false := by simpa using h
      rcases hcmd : cfg.command with _ | cmd
      · simp [startServer, h', hcmd]
      · rcases hsp : sp with _ | p
        · simp [startServer, h', hcmd, hsp]
        · cases hr : (initConnection newMcpClient o1 nk tO).2.1
          · refine ⟨?_, ?_, ?_⟩ <;>
              simp [startServer, h', hcmd, hsp, hr, pyDel_pySet_self,
                    pyDel_of_not_has h']
          · simp [startServer, h', hcmd, hsp, hr] at hfail
  · intro m name cfg sp o1 nk tO hcmd h
    constructor <;> simp [startServer, h, hcmd]

/-- Closed instance: a handshake that times out leaves an empty manager
empty with the spawned process sent SIGTERM, and a spec with no command
fails with no event at all. -/
theorem start_server_failure_unwinds_witness :
    ((startServer ⟨[], []⟩ "srv" ⟨some "cmd", [], []⟩ (some ⟨false, true, true⟩)
        .timeout true .timeout).1.active_processes = []
   ∧ (startServer ⟨[], []⟩ "srv" ⟨some "cmd", [], []⟩ (some ⟨false, true, true⟩)
        .timeout true .timeout).1.mcp_clients = []
   ∧ (MgrEvent.spawned "srv" ∈ (startServer ⟨[], []⟩ "srv" ⟨some "cmd", [], []⟩
        (some ⟨false, true, true⟩) .timeout true .timeout).2.2 →
      MgrEvent.sentTerminate "srv" ∈ (startServer ⟨[], []⟩ "srv" ⟨some "cmd", [], []⟩
        (some ⟨false, true, true⟩) .timeout true .timeout).2.2))
  ∧ ((startServer ⟨[], []⟩ "srv" ⟨none, [], []⟩ none .timeout true .timeout).2.1 = false
   ∧ (startServer ⟨[], []⟩ "srv" ⟨none, [], []⟩ none .timeout true .timeout).2.2 = []) :=
  ⟨start_server_failure_unwinds.1 ⟨[], []⟩ "srv" ⟨some "cmd", [], []⟩
      (some ⟨false, true, true⟩) .timeout true .timeout rfl,
   start_server_failure_unwinds.2 ⟨[], []⟩ "srv" ⟨none, [], []⟩ none
      .timeout true .timeout rfl rfl⟩

/-- C10 counterexample: `start_server` checks only
`server_name in self.active_processes`, never liveness.  Here the
registered process has exited (and no client is registered at all), yet
`start_server` is still a no-op returning success — refuting "no-op
success exactly when a Connection exists and is live". -/
theorem start_noop_dead_counterexample :
    startServer ⟨[("srv", ⟨true, true, true⟩)], []⟩ "srv" ⟨some "cmd", [], []⟩
        (some ⟨false, true, true⟩) (.ok (.obj [])) true .timeout
      = (⟨[("srv", ⟨true, true, true⟩)], []⟩, true, [])
  ∧ pyGet (⟨[("srv", ⟨true, true, true⟩)], []⟩ :
        McpServerManager).active_processes "srv" = some ⟨true, true, true⟩
  ∧ (⟨true, true, true⟩ : Proc).exited = true :=
  ⟨rfl, rfl, rfl⟩

/-- C10 (amended): `start_server` is a no-op returning success exactly
when an entry for the name exists in the process registration,
regardless of whether that process is still live; in that case no
process is spawned and nothing changes. -/
theorem start_noop_iff_registered :
    ∀ (m : McpServerManager) (name : String) (cfg : LaunchSpec) (sp : Option Proc)
      (o1 : Outcome) (nk : Bool) (tO : Outcome),
      pyHas m.active_processes name = true ↔
        startServer m name cfg sp o1 nk tO = (m, true, []) := by
  intro m name cfg sp o1 nk tO
  constructor
  · intro h; simp [startServer, h]
  · intro heq
    by_cases h : pyHas m.active_processes name = true
    · exact h
    · exfalso
      have h' : pyHas m.active_processes name = false := by simpa using h
      rcases hcmd : cfg.command with _ | cmd
      · simp [startServer, h', hcmd] at heq
      · rcases hsp : sp with _ | p
        · simp [startServer, h', hcmd, hsp] at heq
        · cases hr : (initConnection newMcpClient o1 nk tO).2.1
          · simp [startServer, h', hcmd, hsp, hr] at heq
          · simp [startServer, h', hcmd, hsp, hr] at heq

theorem findToolServer_some {clients : List (String × McpClient)} {t : String}
    {sc : String × McpClient} (h : findToolServer clients t = some sc) :
    ∃ pre post, clients = pre ++ sc :: post
      ∧ toolsHaveName (getTools sc.2) t = true
      ∧ ∀ e ∈ pre, toolsHaveName (getTools e.2) t = false := by
  induction clients with
  | nil => simp [findToolServer] at h
  | cons e rest ih =>
      cases he : toolsHaveName (getTools e.2) t with
      | true =>
          simp [findToolServer, he] at h
          subst h
          exact ⟨[], rest, by simp, he, by simp⟩
      | false =>
          simp only [findToolServer, he, Bool.false_eq_true, if_false] at h
          rcases ih h with ⟨pre, post, hsplit, hname, hpre⟩
          refine ⟨e :: pre, post, by simp [hsplit], hname, ?_⟩
          intro f hf
          rcases List.mem_cons.mp hf with rfl | hmem
          · exact he
          · exact hpre f hmem

theorem findToolServer_none {clients : List (String × McpClient)} {t : String} :
    findToolServer clients t = none ↔
      ∀ e ∈ clients, toolsHaveName (getTools e.2) t = false := by
  induction clients with
  | nil => simp [findToolServer]
  | cons e rest ih =>
      cases he : toolsHaveName (getTools e.2) t with
      | false => simp [findToolServer, he, ih]
      | true =>
          refine ⟨fun h => ?_, fun hall => ?_⟩
          · simp [findToolServer, he] at h
          · have := hall e (List.mem_cons_self _ _)
            rw [he] at this
            cases this

/-- C5: with an explicit server name, `call_tool` routes to that
server's client and fails when none is registered under that name;
without one it routes to the first registered client (in registration
order) whose cached tool list holds the name, and fails when no
client's cached list does. -/
theorem call_tool_routing :
    (∀ (m : McpServerManager) (t : String) (a : Json) (o : Outcome) (sn : String),
        pyGet m.mcp_clients sn = none →
        mgrCallTool m t a (some sn) o = (m, none, .error (.serverNotFound sn)))
  ∧ (∀ (m : McpServerManager) (t : String) (a : Json) (o : Outcome) (sn : String)
        (c : McpClient), pyGet m.mcp_clients sn = some c →
          (mgrCallTool m t a (some sn) o).2.1 = some sn
        ∧ (mgrCallTool m t a (some sn) o).2.2 = mapRpc (callToolClient c t a o).2.1)
  ∧ (∀ (m : McpServerManager) (t : String) (a : Json) (o : Outcome),
        findToolServer m.mcp_clients t = none →
        mgrCallTool m t a none o = (m, none, .error (.toolNotFound t)))
  ∧ (∀ (m : McpServerManager) (t : String) (a : Json) (o : Outcome)
        (sn : String) (c : McpClient),
        findToolServer m.mcp_clients t = some (sn, c) →
          (mgrCallTool m t a none o).2.1 = some sn
        ∧ (mgrCallTool m t a none o).2.2 = mapRpc (callToolClient c t a o).2.1)
  ∧ (∀ (clients : List (String × McpClient)) (t : String) (sc : String × McpClient),
        findToolServer clients t = some sc →
        ∃ pre post, clients = pre ++ sc :: post
          ∧ toolsHaveName (getTools sc.2) t = true
          ∧ ∀ e ∈ pre, toolsHaveName (getTools e.2) t = false)
  ∧ (∀ (clients : List (String × McpClient)) (t : String),
        findToolServer clients t = none ↔
          ∀ e ∈ clients, toolsHaveName (getTools e.2) t = false) := by
  refine ⟨fun m t a o sn h => by simp [mgrCallTool, h],
          fun m t a o sn c h => ⟨by simp [mgrCallTool, h], by simp [mgrCallTool, h]⟩,
          fun m t a o h => by simp [mgrCallTool, h],
          fun m t a o sn c h => ⟨by simp [mgrCallTool, h], by simp [mgrCallTool, h]⟩,
          fun clients t sc h => findToolServer_some h,
          fun clients t => findToolServer_none⟩

/-- Closed instance: with servers A then B both exposing tool "x", an
implicit call routes to A (first registered); an explicit call naming
an unregistered server fails. -/
theorem call_tool_routing_witness :
    (mgrCallTool ⟨[], [("A", ⟨0, [], .obj [], .obj [], [.obj [("name", .str "x")]], true⟩),
                      ("B", ⟨0, [], .obj [], .obj [], [.obj [("name", .str "x")]], true⟩)]⟩
        "x" (.obj []) none .timeout).2.1 = some "A"
  ∧ mgrCallTool ⟨[], [("A", ⟨0, [], .obj [], .obj [], [.obj [("name", .str "x")]], true⟩),
                      ("B", ⟨0, [], .obj [], .obj [], [.obj [("name", .str "x")]], true⟩)]⟩
        "x" (.obj []) (some "C") .timeout
      = (⟨[], [("A", ⟨0, [], .obj [], .obj [], [.obj [("name", .str "x")]], true⟩),
               ("B", ⟨0, [], .obj [], .obj [], [.obj [("name", .str "x")]], true⟩)]⟩,
         none, .error (.serverNotFound "C")) :=
  ⟨(call_tool_routing.2.2.2.1
      ⟨[], [("A", ⟨0, [], .obj [], .obj [], [.obj [("name", .str "x")]], true⟩),
            ("B", ⟨0, [], .obj [], .obj [], [.obj [("name", .str "x")]], true⟩)]⟩
      "x" (.obj []) .timeout "A"
      ⟨0, [], .obj [], .obj [], [.obj [("name", .str "x")]], true⟩ rfl).1,
   call_tool_routing.1
      ⟨[], [("A", ⟨0, [], .obj [], .obj [], [.obj [("name", .str "x")]], true⟩),
            ("B", ⟨0, [], .obj [], .obj [], [.obj [("name", .str "x")]], true⟩)]⟩
      "x" (.obj []) .timeout "C" rfl⟩

theorem stopServer_eq_of_not_found {m : McpServerManager} {n : String}
    (hg : pyGet m.active_processes n = none) : (stopServer m n).1 = m := by
  simp [stopServer, hg]

theorem stopServer_eq_of_found {m : McpServerManager} {n : String} {p : Proc}
    (hg : pyGet m.active_processes n = some p) :
    (stopServer m n).1 = ⟨pyDel m.active_processes n, pyDel m.mcp_clients n⟩ := by
  cases hc : pyHas m.mcp_clients n with
  | true =>
      simp [stopServer, hg, hc]
      split <;> rfl
  | false =>
      simp [stopServer, hg, hc, pyDel_of_not_has hc]
      split <;> rfl

theorem stopAll_fold (ns : List String) :
    ∀ m : McpServerManager,
      (∀ e ∈ m.active_processes, e.1 ∈ ns) →
      (∀ e ∈ m.mcp_clients, pyHas m.active_processes e.1 = true) →
      (ns.foldl (fun acc name => (stopServer acc name).1) m).active_processes = []
    ∧ (ns.foldl (fun acc name => (stopServer acc name).1) m).mcp_clients = [] := by
  induction ns with
  | nil =>
      intro m ha hc
      have hA : m.active_processes = [] := by
        cases hm : m.active_processes with
        | nil => rfl
        | cons e rest => exact absurd (ha e (by simp [hm])) (by simp)
      have hC : m.mcp_clients = [] := by
        cases hm : m.mcp_clients with
        | nil => rfl
        | cons e rest =>
            have := hc e (by simp [hm])
            rw [hA] at this
            simp [pyHas, pyGet] at this
      exact ⟨hA, hC⟩
  | cons n rest ih =>
      intro m ha hc
      rw [List.foldl_cons]
      cases hg : pyGet m.active_processes n with
      | none =>
          rw [stopServer_eq_of_not_found hg]
          have hA : pyHas m.active_processes n = false := by simp [pyHas, hg]
          apply ih
          · intro e he
            have hne : e.1 ≠ n := by
              intro he1
              have hmem := mem_pyHas he
              rw [he1, hA] at hmem
              cases hmem
            rcases List.mem_cons.mp (ha e he) with h | h
            · exact absurd h hne
            · exact h
          · intro e he
            exact hc e he
      | some p =>
          rw [stopServer_eq_of_found hg]
          apply ih
          · intro e he
            obtain ⟨hmem, hne⟩ := mem_pyDel he
            rcases List.mem_cons.mp (ha e hmem) with h | h
            · exact absurd h hne
            · exact h
          · intro e he
            obtain ⟨hmem, hne⟩ := mem_pyDel he
            rw [pyHas_pyDel_ne _ hne]
            exact hc e hmem

/-- C6: stopping a registered server always removes both its
registrations, even when the process ignores graceful termination (the
escalation to SIGKILL runs and the bookkeeping `del`s still happen);
and `stop_all_servers` leaves zero registrations, one server's refusal
to stop not preventing the others from being stopped. -/
theorem stop_removes_bookkeeping :
    (∀ (m : McpServerManager) (name : String), pyHas m.active_processes name = true →
        pyHas (stopServer m name).1.active_processes name = false
      ∧ pyHas (stopServer m name).1.mcp_clients name = false)
  ∧ (∀ m : McpServerManager,
        (∀ e ∈ m.mcp_clients, pyHas m.active_processes e.1 = true) →
        (stopAllServers m).active_processes = []
      ∧ (stopAllServers m).mcp_clients = []) := by
  constructor
  · intro m name h
    obtain ⟨p, hg⟩ : ∃ p, pyGet m.active_processes name = some p :=
      Option.isSome_iff_exists.mp (by simpa [pyHas] using h)
    rw [stopServer_eq_of_found hg]
    exact ⟨pyHas_pyDel_self _ _, pyHas_pyDel_self _ _⟩
  · intro m hc
    exact stopAll_fold _ m (fun e he => List.mem_map_of_mem _ he) hc

/-- Closed instance: a manager whose single server hangs on graceful
shutdown (it ignores both stdin closure and SIGTERM) still ends with
zero registrations after `stop_all_servers`, and `stop_server` on it
removes both entries. -/
theorem stop_removes_bookkeeping_witness :
    (pyHas (stopServer ⟨[("srv", ⟨false, false, false⟩)], [("srv", newMcpClient)]⟩
        "srv").1.active_processes "srv" = false
   ∧ pyHas (stopServer ⟨[("srv", ⟨false, false, false⟩)], [("srv", newMcpClient)]⟩
        "srv").1.mcp_clients "srv" = false)
  ∧ ((stopAllServers ⟨[("srv", ⟨false, false, false⟩)],
        [("srv", newMcpClient)]⟩).active_processes = []
   ∧ (stopAllServers ⟨[("srv", ⟨false, false, false⟩)],
        [("srv", newMcpClient)]⟩).mcp_clients = []) :=
  ⟨stop_removes_bookkeeping.1 ⟨[("srv", ⟨false, false, false⟩)],
      [("srv", newMcpClient)]⟩ "srv" rfl,
   stop_removes_bookkeeping.2 ⟨[("srv", ⟨false, false, false⟩)],
      [("srv", newMcpClient)]⟩
      (by intro e he; rcases List.mem_singleton.mp he with rfl; rfl)⟩

end Mcp
